import Mathlib

/-!
Verification of the spectral autoregressive flow kernel
(`gpytorch/kernels/spectral_autoregressive_flow_kernel.py`) and the abstract
variational strategy (`gpytorch/variational/_variational_strategy.py`).

The kernel's numeric computations are embedded over the reals: the drawn
frequency samples and the flow log-density are collaborator outputs
(`dsf_dist.rsample`, `dsf_dist.log_prob`) and are therefore parameters of the
embedded forward functions, while the arithmetic performed on them (rescaling,
pairwise differences, dot products, cosines, log-sum-exp weight normalization,
averaging) is translated line by line from the source.
-/

namespace SpecGP

/-- Dot product over the feature dimension: `(Z * diffs).sum(-1)` in the source. -/
noncomputable def dotD {D : ℕ} (z d : Fin D → ℝ) : ℝ := ∑ j, z j * d j

/-- Elementwise rescaling `x.div(self.lengthscale)` (per-dimension lengthscale). -/
noncomputable def rescale {n D : ℕ} (lengthscale : Fin D → ℝ)
    (x : Fin n → Fin D → ℝ) : Fin n → Fin D → ℝ :=
  fun i j => x i j / lengthscale j

/-- `SpectralAutoregressiveFlowKernel.forward` with `diag=True`: rescale both
inputs, take elementwise differences, and for each position average
`cos(2*pi*<Z_i, diff>)` over the `S = 2000` drawn frequency samples
(`diffs_times_Z.mul(2 * math.pi).cos().mean(dim=-2)`). -/
noncomputable def safForwardDiag {n D : ℕ} (lengthscale : Fin D → ℝ)
    (Z : Fin 2000 → Fin D → ℝ) (x1 x2 : Fin n → Fin D → ℝ) : Fin n → ℝ :=
  fun p =>
    let diff := fun j => rescale lengthscale x1 p j - rescale lengthscale x2 p j
    (∑ i : Fin 2000, Real.cos (2 * Real.pi * dotD (Z i) diff)) / 2000

/-- `SpectralAutoregressiveFlowKernel.forward` with `diag=False`: the input grid
gives all pairwise differences, and the cosine terms are averaged over the
sample axis (`.mean(dim=-3)`). -/
noncomputable def safForwardFull {n m D : ℕ} (lengthscale : Fin D → ℝ)
    (Z : Fin 2000 → Fin D → ℝ) (x1 : Fin n → Fin D → ℝ) (x2 : Fin m → Fin D → ℝ) :
    Fin n → Fin m → ℝ :=
  fun p q =>
    let diff := fun j => rescale lengthscale x1 p j - rescale lengthscale x2 q j
    (∑ i : Fin 2000, Real.cos (2 * Real.pi * dotD (Z i) diff)) / 2000

/-- `torch.logsumexp(log_probs, -1)` over the sample axis. -/
noncomputable def logSumExp {S : ℕ} (lp : Fin S → ℝ) : ℝ :=
  Real.log (∑ i, Real.exp (lp i))

/-- Normalized importance weights of the trapezoidal kernel:
`norm_log_probs = log_probs - torch.logsumexp(log_probs, -1)` followed by
`norm_probs = norm_log_probs.exp()`. -/
noncomputable def normProbs {S : ℕ} (lp : Fin S → ℝ) : Fin S → ℝ :=
  fun i => Real.exp (lp i - logSumExp lp)

/-- `TrapezoidalSpectralAutoregressiveFlowKernel.forward`, `diag=True` branch:
draw `S = 1000` samples, weight each cosine term by its normalized importance
weight (`values = diffs_times_Z.mul(2 * math.pi).cos().mul(norm_probs)`), and
take the mean over the sample axis (`K = values.mean(-2)`). The per-sample
log-densities are `log_probs = dsf_dist.log_prob(samples)`, here the
collaborator function `logProb` applied to each drawn sample. -/
noncomputable def trapForwardDiag {n D : ℕ} (lengthscale : Fin D → ℝ)
    (samples : Fin 1000 → Fin D → ℝ) (logProb : (Fin D → ℝ) → ℝ)
    (x1 x2 : Fin n → Fin D → ℝ) : Fin n → ℝ :=
  fun p =>
    let diff := fun j => rescale lengthscale x1 p j - rescale lengthscale x2 p j
    let lp := fun i => logProb (samples i)
    (∑ i : Fin 1000, Real.cos (2 * Real.pi * dotD (samples i) diff) * normProbs lp i)
      / 1000

/-- `TrapezoidalSpectralAutoregressiveFlowKernel.forward`, full branch:
identical weighting, with the mean taken over the sample axis (`values.mean(-3)`;
the in-place `mul_`, `cos_`, `mul_` compute the same values). -/
noncomputable def trapForwardFull {n m D : ℕ} (lengthscale : Fin D → ℝ)
    (samples : Fin 1000 → Fin D → ℝ) (logProb : (Fin D → ℝ) → ℝ)
    (x1 : Fin n → Fin D → ℝ) (x2 : Fin m → Fin D → ℝ) : Fin n → Fin m → ℝ :=
  fun p q =>
    let diff := fun j => rescale lengthscale x1 p j - rescale lengthscale x2 q j
    let lp := fun i => logProb (samples i)
    (∑ i : Fin 1000, Real.cos (2 * Real.pi * dotD (samples i) diff) * normProbs lp i)
      / 1000

/-- Estimator described by the claim (diag case), stated from the spec's words
for comparison with `trapForwardDiag`: a self-normalized importance-sampling
estimate, i.e. a weighted SUM of the per-sample cosine terms over the sample
axis, with no further division by the sample count. -/
noncomputable def trapClaimDiag {n D : ℕ} (lengthscale : Fin D → ℝ)
    (samples : Fin 1000 → Fin D → ℝ) (logProb : (Fin D → ℝ) → ℝ)
    (x1 x2 : Fin n → Fin D → ℝ) : Fin n → ℝ :=
  fun p =>
    let diff := fun j => rescale lengthscale x1 p j - rescale lengthscale x2 p j
    let lp := fun i => logProb (samples i)
    ∑ i : Fin 1000, Real.cos (2 * Real.pi * dotD (samples i) diff) * normProbs lp i

/-- Estimator described by the claim (full case), stated from the spec's words
for comparison with `trapForwardFull`. -/
noncomputable def trapClaimFull {n m D : ℕ} (lengthscale : Fin D → ℝ)
    (samples : Fin 1000 → Fin D → ℝ) (logProb : (Fin D → ℝ) → ℝ)
    (x1 : Fin n → Fin D → ℝ) (x2 : Fin m → Fin D → ℝ) : Fin n → Fin m → ℝ :=
  fun p q =>
    let diff := fun j => rescale lengthscale x1 p j - rescale lengthscale x2 q j
    let lp := fun i => logProb (samples i)
    ∑ i : Fin 1000, Real.cos (2 * Real.pi * dotD (samples i) diff) * normProbs lp i

lemma abs_mean_cos_le_one {S : ℕ} (hS : 0 < S) (g : Fin S → ℝ) :
    |(∑ i, Real.cos (g i)) / S| ≤ 1 := by
  have hSpos : (0 : ℝ) < S := by exact_mod_cast hS
  rw [abs_div, abs_of_pos hSpos, div_le_one hSpos]
  calc |∑ i, Real.cos (g i)| ≤ ∑ i, |Real.cos (g i)| := Finset.abs_sum_le_sum_abs _ _
    _ ≤ ∑ _i : Fin S, (1 : ℝ) := Finset.sum_le_sum fun i _ => Real.abs_cos_le_one _
    _ = S := by simp

lemma sum_normProbs_eq_one {S : ℕ} (hS : 0 < S) (lp : Fin S → ℝ) :
    ∑ i, normProbs lp i = 1 := by
  have hpos : (0 : ℝ) < ∑ i, Real.exp (lp i) := by
    refine Finset.sum_pos (fun i _ => Real.exp_pos _) ?_
    have : Nonempty (Fin S) := Fin.pos_iff_nonempty.mp hS
    exact Finset.univ_nonempty
  unfold normProbs logSumExp
  have : ∀ i : Fin S,
      Real.exp (lp i - Real.log (∑ j, Real.exp (lp j)))
        = Real.exp (lp i) / (∑ j, Real.exp (lp j)) := by
    intro i
    rw [Real.exp_sub, Real.exp_log hpos]
  rw [Finset.sum_congr rfl fun i _ => this i, ← Finset.sum_div,
    div_self (ne_of_gt hpos)]

/-- C9: every entry produced by the plain cosine-average kernel
`SpectralAutoregressiveFlowKernel.forward` — in diag mode and in full mode, for
every lengthscale, every batch of drawn frequency samples (hence every flow
parameterization), and every pair of input point sets — lies in the interval
[-1, 1], being a uniform average of 2000 cosines. -/
theorem saf_forward_entries_mem_Icc {n m D : ℕ} (lengthscale : Fin D → ℝ)
    (Z : Fin 2000 → Fin D → ℝ) (x1 : Fin n → Fin D → ℝ) (x2 : Fin m → Fin D → ℝ)
    (x2d : Fin n → Fin D → ℝ) (p : Fin n) (q : Fin m) :
    (-1 ≤ safForwardDiag lengthscale Z x1 x2d p ∧
        safForwardDiag lengthscale Z x1 x2d p ≤ 1) ∧
      (-1 ≤ safForwardFull lengthscale Z x1 x2 p q ∧
        safForwardFull lengthscale Z x1 x2 p q ≤ 1) := by
  constructor
  · exact abs_le.mp (abs_mean_cos_le_one (by norm_num) _)
  · exact abs_le.mp (abs_mean_cos_le_one (by norm_num) _)

/-- C8: the normalized importance weights of the trapezoidal kernel — obtained
by subtracting the log-sum-exp of the 1000 per-sample log-densities and
exponentiating — sum to 1 along the sample axis. The weight vector is reshaped
(`view(1000, 1)` / `view(1000, 1, 1)`) and broadcast unchanged to every pair
position, so the sum along the sample axis at every position is this sum. -/
theorem trap_normProbs_sum_one (lp : Fin 1000 → ℝ) :
    ∑ i, normProbs lp i = 1 :=
  sum_normProbs_eq_one (by norm_num) lp

/-- C1 (counterexample): at lengthscale 1, all-zero samples, constant-zero
log-density and the single input point 0 (in one dimension), the code's
estimate `trapForwardDiag` equals 1/1000 while the claim's weighted-sum
estimate `trapClaimDiag` equals 1, so the code's result is NOT the
self-normalized importance-sampling weighted sum the claim asserts. -/
theorem trap_forward_ne_weighted_sum :
    trapForwardDiag (D := 1) (n := 1) (fun _ => 1) (fun _ _ => 0) (fun _ => 0)
        (fun _ _ => 0) (fun _ _ => 0) 0 = 1 / 1000 ∧
      trapClaimDiag (D := 1) (n := 1) (fun _ => 1) (fun _ _ => 0) (fun _ => 0)
        (fun _ _ => 0) (fun _ _ => 0) 0 = 1 ∧
      trapForwardDiag (D := 1) (n := 1) (fun _ => 1) (fun _ _ => 0) (fun _ => 0)
          (fun _ _ => 0) (fun _ _ => 0) 0 ≠
        trapClaimDiag (D := 1) (n := 1) (fun _ => 1) (fun _ _ => 0) (fun _ => 0)
          (fun _ _ => 0) (fun _ _ => 0) 0 := by
  have hclaim : trapClaimDiag (D := 1) (n := 1) (fun _ => 1) (fun _ _ => 0)
      (fun _ => 0) (fun _ _ => 0) (fun _ _ => 0) 0 = 1 := by
    unfold trapClaimDiag
    simp only [dotD, rescale]
    norm_num
    rw [sum_normProbs_eq_one (by norm_num)]
  refine ⟨?_, hclaim, ?_⟩
  · unfold trapForwardDiag
    simp only [dotD, rescale]
    norm_num
    rw [sum_normProbs_eq_one (by norm_num)]
  · intro h
    rw [hclaim] at h
    unfold trapForwardDiag at h
    simp only [dotD, rescale] at h
    norm_num at h
    rw [sum_normProbs_eq_one (by norm_num)] at h
    norm_num at h

/-- C1 (amended): the trapezoidal kernel draws S=1000 samples, computes each
sample's log-density under the flow-transformed distribution, normalizes the
weights with a log-sum-exp-stabilized softmax over the sample axis, and
multiplies each per-sample cosine term by its normalized weight — but then
takes the uniform MEAN over the sample axis, so for every pair of input point
sets the covariance estimate equals the self-normalized weighted sum divided
once more by S = 1000. -/
theorem trap_forward_eq_weighted_sum_div_S {n m D : ℕ} (lengthscale : Fin D → ℝ)
    (samples : Fin 1000 → Fin D → ℝ) (logProb : (Fin D → ℝ) → ℝ)
    (x1 : Fin n → Fin D → ℝ) (x2 : Fin m → Fin D → ℝ)
    (x2d : Fin n → Fin D → ℝ) (p : Fin n) (q : Fin m) :
    trapForwardDiag lengthscale samples logProb x1 x2d p
        = trapClaimDiag lengthscale samples logProb x1 x2d p / 1000 ∧
      trapForwardFull lengthscale samples logProb x1 x2 p q
        = trapClaimFull lengthscale samples logProb x1 x2 p q / 1000 :=
  ⟨rfl, rfl⟩

/-! Input-grid construction (`SpectralAutoregressiveFlowKernel._create_input_grid`).
Tensors are modelled symbolically: an input tensor together with the exact shape
operations the method applies. `torch.equal` (bit-identical contents) is term
equality of this symbolic representation. -/

/-- Symbolic tensor: an input, or the result of one of the shape operations the
grid construction applies (`transpose(-1, -2).unsqueeze(-1)`, `unsqueeze(-2)`,
`unsqueeze(-3)`). -/
inductive Tensor
  | input (id : ℕ)
  | transposeUnsqueeze (t : Tensor)
  | unsqueezeM2 (t : Tensor)
  | unsqueezeM3 (t : Tensor)
deriving DecidableEq, Repr

/-- `_create_input_grid(x1, x2, diag, last_dim_is_batch)`. The third component
records whether the `torch.equal(x1, x2)` short-circuit branch (`x2_ = x1_`,
reusing the transformed `x1`) was taken. -/
def createInputGrid (x1 x2 : Tensor) (diag lastDimIsBatch : Bool) :
    Tensor × Tensor × Bool :=
  let step :=
    if lastDimIsBatch then
      let x1t := Tensor.transposeUnsqueeze x1
      if x1 = x2 then (x1t, x1t, true)
      else (x1t, Tensor.transposeUnsqueeze x2, false)
    else (x1, x2, false)
  if diag then step
  else (Tensor.unsqueezeM2 step.1, Tensor.unsqueezeM3 step.2.1, step.2.2)

/-- The grid call made by both `forward` methods:
`self._create_input_grid(x1_, x2_, diag=diag)`, which leaves
`last_dim_is_batch` at its default `False`. -/
def forwardGridCall (x1 x2 : Tensor) (diag : Bool) : Tensor × Tensor × Bool :=
  createInputGrid x1 x2 diag false

/-- C6 (counterexample): a kernel forward evaluation with `diag=true` on
bit-identical inputs does NOT take the identity-check short-circuit — the
`torch.equal` test lives only in the `last_dim_is_batch` branch, and `forward`
never sets that flag, so the short-circuit marker is `false` and both inputs
are passed through untransformed. -/
theorem diag_forward_no_short_circuit :
    forwardGridCall (Tensor.input 0) (Tensor.input 0) true
        = (Tensor.input 0, Tensor.input 0, false) ∧
      (forwardGridCall (Tensor.input 0) (Tensor.input 0) true).2.2 ≠ true := by
  decide

/-- C6 (amended): the identity check and short-circuit exist only in
`last_dim_is_batch` mode: there, for bit-identical inputs with `diag=true`, the
transformed `x1` is reused for both sides of the grid. The kernel `forward`
calls the grid construction with `last_dim_is_batch` at its default `false`, so
its `diag=true` path applies no transform at all and returns both inputs
unchanged, with no identity check taken. -/
theorem grid_short_circuit_only_in_batch_mode (x : Tensor) (diag : Bool) :
    createInputGrid x x true true
        = (Tensor.transposeUnsqueeze x, Tensor.transposeUnsqueeze x, true) ∧
      (createInputGrid x x diag true).2.2 = true ∧
      forwardGridCall x x true = (x, x, false) := by
  refine ⟨?_, ?_, ?_⟩ <;> cases diag <;> simp [createInputGrid, forwardGridCall]

/-! Constructor chain of `TrapezoidalSpectralAutoregressiveFlowKernel`.
`__init__(self, num_dims, hidden_factors=[8, 8], **kwargs)` forwards
`hidden_factors` positionally as the parent's `stack_size` parameter, which the
parent compares against the integer 1. Python values that can reach that
comparison are modelled as a tagged union of an int and a list of ints, and the
Python 3 comparison semantics (`list > int` raises `TypeError`) as a fallible
operation. -/

/-- Python value passed as `stack_size`: an integer or a list of integers. -/
inductive PyVal
  | int (n : ℤ)
  | list (xs : List ℤ)
deriving DecidableEq, Repr

/-- Python error raised during construction. -/
inductive PyError
  | typeError (msg : String)
deriving DecidableEq, Repr

/-- Python 3 semantics of the comparison `stack_size > 1`: defined for ints,
raising `TypeError` when the left operand is a list. -/
def pyGtOne : PyVal → Except PyError Bool
  | .int n => .ok (decide (1 < n))
  | .list _ =>
    .error (.typeError "unsupported operand types for comparison: list and int")

/-- Field `self.dsf`: a single `BlockAutoregressive` module, or a
`torch.nn.ModuleList` of `stack_size` of them. -/
inductive DsfField
  | single
  | moduleList (len : ℕ)
deriving DecidableEq, Repr

/-- Constructed kernel object (the fields `__init__` sets). -/
structure SAFKernelObj where
  num_dims : ℕ
  dsf : DsfField
deriving DecidableEq, Repr

/-- `SpectralAutoregressiveFlowKernel.__init__`: evaluates `stack_size > 1`
(which may raise), then builds either the module list or the single module. -/
def safInit (numDims : ℕ) (stackSize : PyVal) : Except PyError SAFKernelObj :=
  match pyGtOne stackSize, stackSize with
  | .error e, _ => .error e
  | .ok true, .int n => .ok ⟨numDims, .moduleList n.toNat⟩
  | .ok true, .list _ => .ok ⟨numDims, .moduleList 0⟩
  | .ok false, _ => .ok ⟨numDims, .single⟩

/-- Default value of the `hidden_factors` parameter: the list `[8, 8]`. -/
def defaultHiddenFactors : PyVal := .list [8, 8]

/-- `TrapezoidalSpectralAutoregressiveFlowKernel.__init__`:
`super().__init__(num_dims, hidden_factors, **kwargs)` passes `hidden_factors`
positionally as the parent's `stack_size`. -/
def trapezoidalInit (numDims : ℕ) (hiddenFactors : PyVal) :
    Except PyError SAFKernelObj :=
  safInit numDims hiddenFactors

/-- C10: constructing the trapezoidal kernel with a list `hidden_factors`
(including the default `[8, 8]`) forwards the list positionally as the parent's
`stack_size`, whose comparison with the integer 1 raises a `TypeError`, so the
construction never completes and never produces a kernel object. -/
theorem trapezoidal_init_raises_type_error (d : ℕ) (xs : List ℤ) :
    trapezoidalInit d (.list xs)
        = .error (.typeError "unsupported operand types for comparison: list and int") ∧
      trapezoidalInit d defaultHiddenFactors
        = .error (.typeError "unsupported operand types for comparison: list and int") ∧
      ∀ k : SAFKernelObj, trapezoidalInit d defaultHiddenFactors ≠ .ok k := by
  refine ⟨rfl, rfl, fun k h => ?_⟩
  simp [trapezoidalInit, safInit, pyGtOne, defaultHiddenFactors] at h

/-! State machine of `_VariationalStrategy`
(`gpytorch/variational/_variational_strategy.py`). The mutable per-instance
state is the training flag (`Module.train`), the one-time-initialization buffer
`variational_params_initialized`, and the memoization dictionary
`_memoize_cache` (absent, modelled as `none`, until the first cached access
creates it). Collaborators — the concrete prior distribution p(u) and the
variational-distribution generator `_variational_distribution` — are parameters.
The values stored in q(u) are abstracted to integers; only the distribution's
variant (multivariate normal / delta / anything else) drives the control flow. -/

/-- Variational distribution object returned by the generator: a
`MultivariateNormal` (mean and covariance), a `Delta` (point mass), or any
other distribution type, identified by its type name. -/
inductive VarDist
  | mvn (mean covar : ℤ)
  | delta (mean : ℤ)
  | other (typeName : String)
deriving DecidableEq, Repr

/-- Per-instance memoization dictionary, one field per `@cached` name used by
the strategy: `cholesky_factor`, `prior_distribution_memo`,
`variational_distribution_memo`. -/
structure Cache where
  cholesky_factor : Option ℤ
  prior_distribution_memo : Option ℤ
  variational_distribution_memo : Option VarDist
deriving DecidableEq, Repr

/-- Cache dictionary with no entries. -/
def Cache.empty : Cache := ⟨none, none, none⟩

/-- Mutable state of one strategy instance. `memoize_cache = none` models the
`_memoize_cache` attribute being absent (`delattr` / never created). -/
structure StrategyState where
  training : Bool
  variational_params_initialized : Bool
  memoize_cache : Option Cache
deriving DecidableEq, Repr

/-- `_VariationalStrategy.train(mode)`: deletes `_memoize_cache` when
`(self.training and not mode) or mode`, then `super().train(mode)` sets the
training flag to `mode`. -/
def StrategyState.trainMode (s : StrategyState) (mode : Bool) : StrategyState :=
  { training := mode,
    variational_params_initialized := s.variational_params_initialized,
    memoize_cache :=
      if (s.training && !mode) || mode then none else s.memoize_cache }

/-- Modelled from the spec: the `@cached(name=...)` memoization decorator
(`gpytorch.utils.memoize`, whose source is not part of this repository slice) —
"CacheEntry: a computed-on-demand value ... keyed by a name string, stored per
strategy instance", with lifecycle "created lazily on first access". An access
returns the stored entry when present; otherwise it computes the value and
stores it, creating the cache dictionary if it was absent. -/
def cachedAccess {α : Type} (cache : Option Cache) (read : Cache → Option α)
    (write : Cache → α → Cache) (compute : α) : α × Cache :=
  let c := cache.getD Cache.empty
  match read c with
  | some v => (v, c)
  | none => (compute, write c compute)

/-- Observable phases of one `__call__`, in the order the source executes them. -/
inductive CallEvent
  | cacheInvalidated
  | initTriggered
  | varDistRetrieved
deriving DecidableEq, Repr

/-- Error surfaced by `__call__`: the `RuntimeError` raised for an invalid
variational distribution, carrying the offending type's name (the source
message interpolates `type(variational_dist_u)`). -/
inductive StrategyError
  | invalidDistribution (typeName : String)
deriving DecidableEq, Repr

/-- Predictive-distribution value returned by `__call__`: the raw model forward
(prior mode), or the marginalization collaborator's output, identified by the
arguments `__call__` passes it (`inducing_values` and
`variational_inducing_covar`); `marginalMap` is the second component of the
pair the concrete forward returns in the Gaussian branch. -/
inductive PredDist
  | priorModel
  | marginal (inducingValues : ℤ) (inducingCovar : Option ℤ)
  | marginalMap (inducingValues : ℤ) (inducingCovar : Option ℤ)
deriving DecidableEq, Repr

/-- Return shape of `__call__`: a single distribution, or the pair
`(pred_distribution, pred_distribution_map)` when `return_map_dist` is set. -/
inductive CallResult
  | single (p : PredDist)
  | pair (p m : PredDist)
deriving DecidableEq, Repr

/-- `_VariationalStrategy.__call__(x, prior, return_map_dist)`, returning the
result (or raised error), the post-call state, and the trace of observable
phases. Phase order follows the source: prior short-circuit; cache deletion
when in training mode (`delattr` then a fresh empty dict, only when the
attribute exists); one-time initialization (a cached access to
`prior_distribution` followed by
`initialize_variational_distribution(prior_dist)` and `fill_(1)`) when the
flag is unset; cached retrieval of `variational_distribution`; dispatch on its
variant. State mutations performed before the invalid-distribution error is
raised persist, as they do in Python. -/
def strategyCall (priorDist : ℤ) (gen : VarDist) (s : StrategyState)
    (prior returnMapDist : Bool) :
    Except StrategyError CallResult × StrategyState × List CallEvent :=
  if prior then
    (.ok (.single .priorModel), s, [])
  else
    let stepClear : Option Cache × List CallEvent :=
      if s.training then
        match s.memoize_cache with
        | some _ => (some Cache.empty, [CallEvent.cacheInvalidated])
        | none => (s.memoize_cache, [])
      else (s.memoize_cache, [])
    let stepInit : Option Cache × List CallEvent :=
      if s.variational_params_initialized then (stepClear.1, [])
      else
        let pc := cachedAccess stepClear.1 (fun c => c.prior_distribution_memo)
          (fun c v => { c with prior_distribution_memo := some v }) priorDist
        (some pc.2, [CallEvent.initTriggered])
    let vc := cachedAccess stepInit.1 (fun c => c.variational_distribution_memo)
      (fun c v => { c with variational_distribution_memo := some v }) gen
    let s' : StrategyState :=
      { training := s.training, variational_params_initialized := true,
        memoize_cache := some vc.2 }
    let evs := stepClear.2 ++ stepInit.2 ++ [CallEvent.varDistRetrieved]
    match vc.1 with
    | .mvn m c =>
      let pred := PredDist.marginal m (some c)
      let predMap := PredDist.marginalMap m (some c)
      (.ok (if returnMapDist then .pair pred predMap else .single pred), s', evs)
    | .delta m =>
      let pred := PredDist.marginal m none
      (.ok (if returnMapDist then .pair pred pred else .single pred), s', evs)
    | .other t =>
      (.error (.invalidDistribution t), s', evs)

/-- Operations a user can perform on one strategy instance. -/
inductive StrategyOp
  | setTrain (mode : Bool)
  | call (prior returnMapDist : Bool)
deriving DecidableEq, Repr

/-- Test for a non-prior invocation (`__call__` with `prior=False`). -/
def StrategyOp.isNonPriorCall : StrategyOp → Bool
  | .call false _ => true
  | _ => false

/-- Apply one operation; also report how many times this operation triggered
`initialize_variational_distribution`. -/
def applyOp (priorDist : ℤ) (gen : VarDist) (s : StrategyState) :
    StrategyOp → StrategyState × ℕ
  | .setTrain m => (s.trainMode m, 0)
  | .call p rm =>
    let r := strategyCall priorDist gen s p rm
    (r.2.1, r.2.2.count CallEvent.initTriggered)

/-- Run a sequence of operations, accumulating the initialization count. -/
def runOps (priorDist : ℤ) (gen : VarDist) :
    StrategyState → List StrategyOp → StrategyState × ℕ
  | s, [] => (s, 0)
  | s, op :: rest =>
    let r := applyOp priorDist gen s op
    let r2 := runOps priorDist gen r.1 rest
    (r2.1, r.2 + r2.2)

/-- Fresh strategy state as `__init__` leaves it: the given training flag, the
`variational_params_initialized` buffer at 0, and no `_memoize_cache`
attribute. -/
def freshState (training : Bool) : StrategyState := ⟨training, false, none⟩

lemma strategyCall_nonprior_spec (pd : ℤ) (gen : VarDist) (s : StrategyState)
    (rm : Bool) :
    (strategyCall pd gen s false rm).2.1.training = s.training ∧
      (strategyCall pd gen s false rm).2.1.variational_params_initialized = true ∧
      (strategyCall pd gen s false rm).2.2.count CallEvent.initTriggered
        = (if s.variational_params_initialized then 0 else 1) := by
  obtain ⟨tr, init, cache⟩ := s
  rcases cache with _ | ⟨cf, pm, vm⟩
  · cases tr <;> cases init <;> cases gen <;>
      simp [strategyCall, cachedAccess, Cache.empty]
  · cases tr <;> cases init <;> rcases pm with _ | pv <;> rcases vm with _ | vd <;>
      first
        | (cases vd <;> cases gen <;> simp [strategyCall, cachedAccess, Cache.empty])
        | (cases gen <;> simp [strategyCall, cachedAccess, Cache.empty])

lemma applyOp_spec (pd : ℤ) (gen : VarDist) (s : StrategyState) (op : StrategyOp) :
    ((applyOp pd gen s op).1).variational_params_initialized
        = (s.variational_params_initialized || op.isNonPriorCall) ∧
      (applyOp pd gen s op).2
        = (if s.variational_params_initialized then 0
            else if op.isNonPriorCall then 1 else 0) := by
  cases op with
  | setTrain m =>
    cases hi : s.variational_params_initialized <;>
      simp [applyOp, StrategyState.trainMode, StrategyOp.isNonPriorCall, hi]
  | call p rm =>
    cases p with
    | true =>
      cases hi : s.variational_params_initialized <;>
        simp [applyOp, strategyCall, StrategyOp.isNonPriorCall, hi]
    | false =>
      have h := strategyCall_nonprior_spec pd gen s rm
      simp only [applyOp, StrategyOp.isNonPriorCall]
      rw [h.2.1, h.2.2]
      cases s.variational_params_initialized <;> simp

lemma runOps_count_zero_of_initialized (pd : ℤ) (gen : VarDist) :
    ∀ (ops : List StrategyOp) (s : StrategyState),
      s.variational_params_initialized = true →
      (runOps pd gen s ops).2 = 0 ∧
        (runOps pd gen s ops).1.variational_params_initialized = true := by
  intro ops
  induction ops with
  | nil => intro s hs; exact ⟨rfl, hs⟩
  | cons op rest ih =>
    intro s hs
    have h := applyOp_spec pd gen s op
    have hflag : ((applyOp pd gen s op).1).variational_params_initialized = true := by
      rw [h.1, hs]; simp
    have hcount : (applyOp pd gen s op).2 = 0 := by rw [h.2, hs]; simp
    have hr := ih (applyOp pd gen s op).1 hflag
    simp only [runOps]
    exact ⟨by rw [hcount, hr.1], hr.2⟩

lemma runOps_count_of_uninitialized (pd : ℤ) (gen : VarDist) :
    ∀ (ops : List StrategyOp) (s : StrategyState),
      s.variational_params_initialized = false →
      (runOps pd gen s ops).2
        = (if ops.any StrategyOp.isNonPriorCall then 1 else 0) := by
  intro ops
  induction ops with
  | nil => intro s _; simp [runOps]
  | cons op rest ih =>
    intro s hs
    have h := applyOp_spec pd gen s op
    simp only [runOps, List.any_cons]
    rcases Bool.dichotomy op.isNonPriorCall with hop | hop
    · have hflag : ((applyOp pd gen s op).1).variational_params_initialized = false := by
        simp [h.1, hs, hop]
      have hcount : (applyOp pd gen s op).2 = 0 := by simp [h.2, hs, hop]
      rw [hcount, ih _ hflag]
      simp [hop]
    · have hflag : ((applyOp pd gen s op).1).variational_params_initialized = true := by
        simp [h.1, hs, hop]
      have hcount : (applyOp pd gen s op).2 = 1 := by simp [h.2, hs, hop]
      rw [hcount, (runOps_count_zero_of_initialized pd gen rest _ hflag).1]
      simp [hop]

/-- C4: the variational-distribution initialization runs exactly once — on the
first non-prior invocation, in either training or evaluation mode. Starting
from a freshly constructed strategy, any sequence of mode changes and calls
triggers `initialize_variational_distribution` exactly once when it contains a
non-prior call and never otherwise; moreover, once
`variational_params_initialized` is set it stays set across every further
operation, and an operation on an initialized instance never re-triggers
initialization. -/
theorem variational_init_exactly_once (pd : ℤ) (gen : VarDist) (tr : Bool)
    (ops : List StrategyOp) :
    (runOps pd gen (freshState tr) ops).2
        = (if ops.any StrategyOp.isNonPriorCall then 1 else 0) ∧
      ∀ (s : StrategyState) (op : StrategyOp),
        s.variational_params_initialized = true →
        ((applyOp pd gen s op).1).variational_params_initialized = true ∧
          (applyOp pd gen s op).2 = 0 := by
  refine ⟨runOps_count_of_uninitialized pd gen ops (freshState tr) rfl, ?_⟩
  intro s op hs
  have h := applyOp_spec pd gen s op
  exact ⟨by rw [h.1, hs]; simp, by rw [h.2, hs]; simp⟩

/-- Witness for C4 at concrete inputs: two evaluation-mode calls, a switch to
training and another call still initialize exactly once, and a call on an
already-initialized instance keeps the flag set. -/
theorem variational_init_exactly_once_witness :
    (runOps 0 (VarDist.delta 0) (freshState false)
        [StrategyOp.call false false, StrategyOp.call false false,
          StrategyOp.setTrain true, StrategyOp.call false false]).2 = 1 ∧
      ((applyOp 0 (VarDist.delta 0) ⟨false, true, none⟩
          (StrategyOp.call false false)).1).variational_params_initialized = true := by
  have h := variational_init_exactly_once 0 (VarDist.delta 0) false
    [StrategyOp.call false false, StrategyOp.call false false,
      StrategyOp.setTrain true, StrategyOp.call false false]
  refine ⟨by rw [h.1]; decide, (h.2 ⟨false, true, none⟩ (StrategyOp.call false false) rfl).1⟩

lemma strategyCall_training_cache_irrelevant (pd : ℤ) (gen : VarDist)
    (init : Bool) (c : Option Cache) (rm : Bool) :
    (strategyCall pd gen ⟨true, init, c⟩ false rm).1
        = (strategyCall pd gen ⟨true, init, none⟩ false rm).1 ∧
      (strategyCall pd gen ⟨true, init, c⟩ false rm).2.1
        = (strategyCall pd gen ⟨true, init, none⟩ false rm).2.1 := by
  rcases c with _ | c'
  · exact ⟨rfl, rfl⟩
  · cases init <;> cases gen <;> simp [strategyCall, cachedAccess, Cache.empty]

/-- C3: every train-to-eval transition, every eval-to-train transition, and
every re-entry into training mode through `train(mode)` deletes the entire
per-instance memoization cache; and a `__call__` made while in training mode
clears the cache before proceeding, so its outcome and post-call state are
independent of whatever was cached before (previously cached Cholesky factor,
prior-distribution and variational-distribution entries are all recomputed),
and when a cache exists the invalidation is the first phase of the call. -/
theorem mode_transitions_invalidate_cache :
    (∀ (s : StrategyState) (mode : Bool),
        (s.training = true ∧ mode = false) ∨ mode = true →
        (s.trainMode mode).memoize_cache = none) ∧
      (∀ (pd : ℤ) (gen : VarDist) (init : Bool) (c₁ c₂ : Option Cache) (rm : Bool),
        (strategyCall pd gen ⟨true, init, c₁⟩ false rm).1
            = (strategyCall pd gen ⟨true, init, c₂⟩ false rm).1 ∧
          (strategyCall pd gen ⟨true, init, c₁⟩ false rm).2.1
            = (strategyCall pd gen ⟨true, init, c₂⟩ false rm).2.1) ∧
      (∀ (pd : ℤ) (gen : VarDist) (init : Bool) (c : Cache) (rm : Bool),
        ((strategyCall pd gen ⟨true, init, some c⟩ false rm).2.2).head?
          = some CallEvent.cacheInvalidated) := by
  refine ⟨?_, ?_, ?_⟩
  · intro s mode h
    rcases h with ⟨h1, h2⟩ | h2
    · simp [StrategyState.trainMode, h1, h2]
    · simp [StrategyState.trainMode, h2]
  · intro pd gen init c₁ c₂ rm
    have h1 := strategyCall_training_cache_irrelevant pd gen init c₁ rm
    have h2 := strategyCall_training_cache_irrelevant pd gen init c₂ rm
    exact ⟨h1.1.trans h2.1.symm, h1.2.trans h2.2.symm⟩
  · intro pd gen init c rm
    cases init <;> cases gen <;> simp [strategyCall, cachedAccess, Cache.empty]

/-- Witness for C3 at concrete inputs: switching a populated evaluation-mode
instance into training mode empties the cache, a training-mode call gives the
same outcome with and without a stale cache, and the stale-cache call starts
with the invalidation phase. -/
theorem mode_transitions_invalidate_cache_witness :
    (StrategyState.trainMode ⟨false, true, some Cache.empty⟩ true).memoize_cache
        = none ∧
      (strategyCall 0 (VarDist.delta 3) ⟨true, true, some Cache.empty⟩ false false).1
        = (strategyCall 0 (VarDist.delta 3) ⟨true, true, none⟩ false false).1 ∧
      ((strategyCall 0 (VarDist.delta 3) ⟨true, true, some Cache.empty⟩
          false false).2.2).head? = some CallEvent.cacheInvalidated :=
  ⟨mode_transitions_invalidate_cache.1 ⟨false, true, some Cache.empty⟩ true (Or.inr rfl),
    (mode_transitions_invalidate_cache.2.1 0 (VarDist.delta 3) true
      (some Cache.empty) none false).1,
    mode_transitions_invalidate_cache.2.2 0 (VarDist.delta 3) true Cache.empty false⟩

/-- C5: within one non-prior invocation the observable phases occur in strict
order — cache invalidation (training mode only), then the initialization
check/one-time initialization, then retrieval of the variational distribution:
the emitted trace is always a sublist of that three-phase sequence, each phase
occurring at most once. Consequently the cache entry populated by a first-call
initialization (the prior-distribution memo) survives into the rest of that
same call: it is still present in the post-call cache. -/
theorem call_phase_ordering (pd : ℤ) (gen : VarDist) (s : StrategyState)
    (rm : Bool) :
    List.Sublist (strategyCall pd gen s false rm).2.2
        [CallEvent.cacheInvalidated, CallEvent.initTriggered,
          CallEvent.varDistRetrieved] ∧
      (s.variational_params_initialized = false →
        ((strategyCall pd gen s false rm).2.1.memoize_cache.getD
            Cache.empty).prior_distribution_memo.isSome = true) := by
  obtain ⟨tr, init, cache⟩ := s
  rcases cache with _ | ⟨cf, pm, vm⟩
  · cases tr <;> cases init <;> cases gen <;>
      simp [strategyCall, cachedAccess, Cache.empty]
  · cases tr <;> cases init <;> rcases pm with _ | pv <;> rcases vm with _ | vd <;>
      first
        | (cases vd <;> cases gen <;>
            simp [strategyCall, cachedAccess, Cache.empty])
        | (cases gen <;> simp [strategyCall, cachedAccess, Cache.empty])

/-- Witness for C5 at concrete inputs: a first evaluation-mode call on a fresh
instance leaves the prior-distribution memo written by initialization in the
post-call cache. -/
theorem call_phase_ordering_witness :
    ((strategyCall 0 (VarDist.delta 0) (freshState false) false
        false).2.1.memoize_cache.getD Cache.empty).prior_distribution_memo.isSome
      = true :=
  (call_phase_ordering 0 (VarDist.delta 0) (freshState false) false).2 rfl

/-- C2 (counterexample): invoking the strategy (eval mode, initialized, with an
existing empty cache) on a generator returning an unsupported distribution type
does raise the invalid-distribution error naming that type — but the
per-instance cache is NOT left unchanged: the failed call memoizes the
retrieved q(u), so the claim's "cache left unchanged / no partial cache writes"
part is false. -/
theorem invalid_dist_cache_changed :
    (strategyCall 0 (VarDist.other "Bernoulli") ⟨false, true, some Cache.empty⟩
        false false).1 = .error (.invalidDistribution "Bernoulli") ∧
      (strategyCall 0 (VarDist.other "Bernoulli") ⟨false, true, some Cache.empty⟩
          false false).2.1.memoize_cache ≠ some Cache.empty := by
  exact ⟨rfl, by decide⟩

/-- C2 (amended): when the retrieved q(u) is neither a `MultivariateNormal` nor
a `Delta`, the call raises the invalid-distribution error naming the offending
type and returns no predictive distribution — but the per-instance cache is
modified before the failure: the retrieved distribution is written into the
`variational_distribution_memo` cache entry (stated for calls whose cache holds
no previously memoized variational distribution, so the retrieval reaches the
generator). -/
theorem invalid_dist_raises_and_memoizes (pd : ℤ) (t : String)
    (s : StrategyState) (rm : Bool)
    (h : (s.memoize_cache.getD Cache.empty).variational_distribution_memo = none) :
    (strategyCall pd (VarDist.other t) s false rm).1
        = .error (.invalidDistribution t) ∧
      ((strategyCall pd (VarDist.other t) s false rm).2.1.memoize_cache.getD
          Cache.empty).variational_distribution_memo = some (VarDist.other t) := by
  obtain ⟨tr, init, cache⟩ := s
  rcases cache with _ | ⟨cf, pm, vm⟩
  · cases tr <;> cases init <;>
      simp [strategyCall, cachedAccess, Cache.empty]
  · simp only [Option.getD] at h
    subst h
    cases tr <;> cases init <;> rcases pm with _ | pv <;>
      simp [strategyCall, cachedAccess, Cache.empty]

/-- Witness for C2's amended claim at concrete inputs: a fresh evaluation-mode
instance with a generator of unsupported type "Bernoulli". -/
theorem invalid_dist_raises_and_memoizes_witness :
    (strategyCall 0 (VarDist.other "Bernoulli") (freshState false) false
        false).1 = .error (.invalidDistribution "Bernoulli") ∧
      ((strategyCall 0 (VarDist.other "Bernoulli") (freshState false) false
          false).2.1.memoize_cache.getD Cache.empty).variational_distribution_memo
        = some (VarDist.other "Bernoulli") :=
  invalid_dist_raises_and_memoizes 0 "Bernoulli" (freshState false) false (by decide)

/-- C7: when the retrieved q(u) is a `Delta` point mass, the marginalization
step is called with the point-mass location as `inducing_values` and
`variational_inducing_covar=None`, and with `return_map_dist=true` the returned
MAP predictive is identical to the regular predictive (the source assigns
`pred_distribution_map = pred_distribution`); without `return_map_dist` the
single regular predictive is returned (stated for calls whose cache holds no
previously memoized variational distribution, so the retrieval reaches the
generator). -/
theorem delta_map_predictive_identical (pd m : ℤ) (s : StrategyState)
    (h : (s.memoize_cache.getD Cache.empty).variational_distribution_memo = none) :
    (strategyCall pd (VarDist.delta m) s false true).1
        = .ok (.pair (.marginal m none) (.marginal m none)) ∧
      (strategyCall pd (VarDist.delta m) s false false).1
        = .ok (.single (.marginal m none)) := by
  obtain ⟨tr, init, cache⟩ := s
  rcases cache with _ | ⟨cf, pm, vm⟩
  · cases tr <;> cases init <;>
      simp [strategyCall, cachedAccess, Cache.empty]
  · simp only [Option.getD] at h
    subst h
    cases tr <;> cases init <;> rcases pm with _ | pv <;>
      simp [strategyCall, cachedAccess, Cache.empty]

/-- Witness for C7 at concrete inputs: a fresh evaluation-mode instance with a
point mass at 5. -/
theorem delta_map_predictive_identical_witness :
    (strategyCall 0 (VarDist.delta 5) (freshState false) false true).1
        = .ok (.pair (.marginal 5 none) (.marginal 5 none)) ∧
      (strategyCall 0 (VarDist.delta 5) (freshState false) false false).1
        = .ok (.single (.marginal 5 none)) :=
  delta_map_predictive_identical 0 5 (freshState false) (by decide)

end SpecGP
